import Mathlib

/-!
Shallow embedding of the client-side content repository of the
LP-Yaymon e-learning application (src/services/mockApi.ts).

The IndexedDB-backed store is modelled as an explicit state value (`DB`)
holding the four object stores (`users`, `courses`, `enrollments`,
`reviews`) as lists of records.  Each API operation becomes a pure
function from its arguments and the current `DB` to
`Except String (result × DB)`, where the `String` carries the exact
message of the `Error` thrown by the source (IndexedDB constraint
failures, which the source surfaces as rejected requests aborting the
transaction, are modelled as the error string "ConstraintError").

JavaScript conventions are mapped as follows: an absent / `undefined` /
`null` object field becomes `Option.none`; `Date.now()` is passed in as
an explicit `now : Nat` argument to every operation that mints an id;
`URL.createObjectURL` becomes the pure function `objectUrl`; `fetch` of
a seed asset becomes an oracle `String → Option BlobData` giving for
each URL either the fetched bytes or `none` for a failed fetch.
-/

namespace Yaymon

/-- Roles, from types.ts (`Role`). -/
inductive Role where
  | admin
  | teacher
  | student
deriving DecidableEq, Repr

/-- Course status, from types.ts (`CourseStatus`). -/
inductive CourseStatus where
  | draft
  | published
  | archived
deriving DecidableEq, Repr

/-- Enrollment status, from types.ts (`EnrollmentStatus`). -/
inductive EnrollmentStatus where
  | pending
  | approved
  | rejected
deriving DecidableEq, Repr

/-- Binary content (a JS `Blob` / `File`): a name (empty for plain
blobs), a byte size, and an abstract content identifier. -/
structure BlobData where
  name : String
  size : Nat
  content : Nat
deriving DecidableEq, Repr

/-- Stored user record (`users` object store; `User` of types.ts plus
the repository-internal `password` and `profilePhotoBlob` fields).
An absent `password` key is `none`. -/
structure UserRecord where
  id : String
  email : String
  password : Option String
  name : String
  role : Role
  profilePhotoUrl : String
  profilePhotoBlob : Option BlobData := none
deriving DecidableEq, Repr

/-- Stored lesson record (`Lesson` of types.ts plus blob fields).
Sizes are in megabytes, as in the source (`size / (1024 * 1024)`),
modelled exactly as rationals. -/
structure LessonRecord where
  id : String
  title : String
  content : String
  duration : Option String := none
  videoUrl : Option String := none
  videoBlob : Option BlobData := none
  videoSize : Option Rat := none
  fileUrl : Option String := none
  fileName : Option String := none
  fileBlob : Option BlobData := none
  fileSize : Option Rat := none
deriving DecidableEq, Repr

/-- Stored course record (`courses` object store), owning its ordered
lesson list. -/
structure CourseRecord where
  id : String
  title : String
  description : String
  teacherId : String
  imageUrl : String
  status : CourseStatus
  lessons : List LessonRecord
  imageBlob : Option BlobData := none
deriving DecidableEq, Repr

/-- Stored enrollment record (`enrollments` object store). -/
structure EnrollmentRecord where
  id : String
  studentId : String
  courseId : String
  status : EnrollmentStatus
deriving DecidableEq, Repr

/-- Stored review record (`reviews` object store). -/
structure ReviewRecord where
  id : String
  studentId : String
  courseId : String
  rating : Nat
  comment : String
deriving DecidableEq, Repr

/-- The whole database: the four object stores. -/
structure DB where
  users : List UserRecord
  courses : List CourseRecord
  enrollments : List EnrollmentRecord
  reviews : List ReviewRecord
deriving DecidableEq, Repr

/-- The empty database (all stores empty). -/
def emptyDB : DB := ⟨[], [], [], []⟩

/-- `URL.createObjectURL` modelled as a pure function of the blob. -/
def objectUrl (b : BlobData) : String :=
  "blob:" ++ b.name ++ "-" ++ toString b.size ++ "-" ++ toString b.content

/-- `processUser`: if a profile-photo blob is stored, derive
`profilePhotoUrl` from it (mockApi.ts `processBlobUrl` specialised to
users). -/
def processUser (u : UserRecord) : UserRecord :=
  match u.profilePhotoBlob with
  | some b => { u with profilePhotoUrl := objectUrl b }
  | none => u

/-- `processCourse`: derive `imageUrl` from a stored image blob. -/
def processCourse (c : CourseRecord) : CourseRecord :=
  match c.imageBlob with
  | some b => { c with imageUrl := objectUrl b }
  | none => c

/-- `processLesson`: derive `videoUrl` / `fileUrl` from stored blobs. -/
def processLesson (l : LessonRecord) : LessonRecord :=
  let l1 := match l.videoBlob with
    | some b => { l with videoUrl := some (objectUrl b) }
    | none => l
  match l1.fileBlob with
  | some b => { l1 with fileUrl := some (objectUrl b) }
  | none => l1

/-- Strip the credential, as the destructuring
`const (password, ...rest) = u` does: the result has no password key. -/
def stripPassword (u : UserRecord) : UserRecord :=
  { u with password := none }

/-- `users` store, `email` index `get`: the record with this email, if
any (the index is unique, so at most one exists in well-formed states). -/
def findUserByEmail (users : List UserRecord) (email : String) :
    Option UserRecord :=
  users.find? (fun u => u.email = email)

/-- `users` store `add`: fails (aborting the transaction) when the key
`id` is already present or when the unique `email` index is violated. -/
def usersAdd (users : List UserRecord) (r : UserRecord) :
    Except String (List UserRecord) :=
  if users.any (fun u => u.id = r.id) then .error "ConstraintError"
  else if users.any (fun u => u.email = r.email) then .error "ConstraintError"
  else .ok (users ++ [r])

/-- `users` store `put` (upsert by key `id`): fails when the unique
`email` index would be violated by a distinct record with this email. -/
def usersPut (users : List UserRecord) (r : UserRecord) :
    Except String (List UserRecord) :=
  if users.any (fun u => u.id ≠ r.id ∧ u.email = r.email) then
    .error "ConstraintError"
  else if users.any (fun u => u.id = r.id) then
    .ok (users.map (fun u => if u.id = r.id then r else u))
  else .ok (users ++ [r])

-- --- Auth ---

/-- `api.login(email, password_param)`: look the user up through the
unique email index and compare the stored credential; return the
processed record with the credential stripped. -/
def login (email pw : String) (db : DB) : Except String UserRecord :=
  match findUserByEmail db.users email with
  | some u =>
      if u.password = some pw then .ok (stripPassword (processUser u))
      else .error "Invalid credentials"
  | none => .error "Invalid credentials"

/-- `api.register(name, email, password_param)`: reject a duplicate
email, otherwise add a fresh Student record. -/
def register (name email pw : String) (now : Nat) (db : DB) :
    Except String (UserRecord × DB) :=
  match findUserByEmail db.users email with
  | some _ => .error "User with this email already exists"
  | none =>
      let newUser : UserRecord :=
        { id := "user" ++ toString now, email := email, password := some pw,
          name := name, role := Role.student, profilePhotoUrl := "" }
      (usersAdd db.users newUser).map
        (fun users' => (stripPassword newUser, { db with users := users' }))

-- --- Users ---

/-- `api.getUsers()`: all user records, processed and with credentials
stripped. -/
def getUsers (db : DB) : List UserRecord :=
  db.users.map (fun u => stripPassword (processUser u))

/-- Payload of `api.updateUser` (`Partial<User> & id & newProfilePhoto`):
absent fields are `none`. -/
structure UserUpdatePayload where
  id : String
  email : Option String := none
  name : Option String := none
  role : Option Role := none
  profilePhotoUrl : Option String := none
  password : Option String := none
  newProfilePhoto : Option BlobData := none
deriving DecidableEq, Repr

/-- `api.updateUser(userData)`: merge the supplied fields over the
existing record; a supplied photo replaces the stored blob; a supplied
empty-string password makes the code delete the password key from the
merged record (`delete updatedRecord.password`). -/
def updateUser (p : UserUpdatePayload) (db : DB) :
    Except String (UserRecord × DB) :=
  match db.users.find? (fun u => u.id = p.id) with
  | none => .error "User not found"
  | some existing =>
      let merged : UserRecord :=
        { id := p.id,
          email := p.email.getD existing.email,
          password := match p.password with
            | some s => some s
            | none => existing.password,
          name := p.name.getD existing.name,
          role := p.role.getD existing.role,
          profilePhotoUrl := p.profilePhotoUrl.getD existing.profilePhotoUrl,
          profilePhotoBlob := match p.newProfilePhoto with
            | some b => some b
            | none => existing.profilePhotoBlob }
      let merged :=
        if p.password = some "" then { merged with password := none }
        else merged
      (usersPut db.users merged).map
        (fun users' =>
          (stripPassword (processUser merged), { db with users := users' }))

/-- Payload of `api.createUser`. -/
structure UserCreatePayload where
  email : String
  name : String
  role : Role
  password : String
deriving DecidableEq, Repr

/-- `api.createUser(userData)`: reject a duplicate email, otherwise add
the record with a fresh id and empty photo URL. -/
def createUser (p : UserCreatePayload) (now : Nat) (db : DB) :
    Except String (UserRecord × DB) :=
  match findUserByEmail db.users p.email with
  | some _ => .error "Email already in use"
  | none =>
      let newUser : UserRecord :=
        { id := "user" ++ toString now, email := p.email,
          password := some p.password, name := p.name, role := p.role,
          profilePhotoUrl := "" }
      (usersAdd db.users newUser).map
        (fun users' => (stripPassword newUser, { db with users := users' }))

/-- `api.deleteUser(userId)`: remove the record by key (succeeds even
when absent, as IndexedDB `delete` does). -/
def deleteUser (userId : String) (db : DB) : DB :=
  { db with users := db.users.filter (fun u => u.id ≠ userId) }

-- --- Courses ---

/-- `courses` store `get` by key. -/
def findCourse (db : DB) (courseId : String) : Option CourseRecord :=
  db.courses.find? (fun c => c.id = courseId)

/-- `courses` store `add`: fails when the key `id` is already present.
The `teacherId` index is non-unique so imposes no constraint. -/
def coursesAdd (courses : List CourseRecord) (r : CourseRecord) :
    Except String (List CourseRecord) :=
  if courses.any (fun c => c.id = r.id) then .error "ConstraintError"
  else .ok (courses ++ [r])

/-- `courses` store `put` (upsert by key `id`): never fails. -/
def coursesPut (courses : List CourseRecord) (r : CourseRecord) :
    List CourseRecord :=
  if courses.any (fun c => c.id = r.id) then
    courses.map (fun c => if c.id = r.id then r else c)
  else courses ++ [r]

/-- A course decorated with its teacher's display data
(`CourseWithTeacherInfo`). -/
structure CourseWithTeacherInfo where
  course : CourseRecord
  teacherName : String
  teacherProfilePhotoUrl : String
deriving DecidableEq, Repr

/-- The teacher-join used by `getCourses` and
`getEnrolledCoursesByStudentId`: decorate a course with the name and
photo of the teacher found in the user list, or the "Unknown" fallback. -/
def joinTeacher (users : List UserRecord) (c : CourseRecord) :
    CourseWithTeacherInfo :=
  match users.find? (fun u => u.role = Role.teacher ∧ u.id = c.teacherId) with
  | some t =>
      let ti := processUser t
      ⟨processCourse c, ti.name, ti.profilePhotoUrl⟩
  | none => ⟨processCourse c, "Unknown", ""⟩

/-- `api.getCourses()`: published courses joined with teacher info. -/
def getCourses (db : DB) : List CourseWithTeacherInfo :=
  (db.courses.filter (fun c => c.status = CourseStatus.published)).map
    (joinTeacher db.users)

/-- `api.getAllCoursesForAdmin()`: every course, processed. -/
def getAllCoursesForAdmin (db : DB) : List CourseRecord :=
  db.courses.map processCourse

/-- `api.getCoursesByTeacherId(teacherId)`: the `teacherId` index
restricted to one key, processed. -/
def getCoursesByTeacherId (teacherId : String) (db : DB) :
    List CourseRecord :=
  (db.courses.filter (fun c => c.teacherId = teacherId)).map processCourse

/-- `api.getCourseById(courseId)`: the course, processed, with each
lesson processed. -/
def getCourseById (courseId : String) (db : DB) : Option CourseRecord :=
  match findCourse db courseId with
  | none => none
  | some course =>
      let pc := processCourse course
      some { pc with lessons := pc.lessons.map processLesson }

/-- Payload of `api.createCourse` (`CourseCreatePayload`). -/
structure CourseCreatePayload where
  title : String
  description : String
  status : CourseStatus
  imageFile : Option BlobData := none
deriving DecidableEq, Repr

/-- `api.createCourse(courseData, teacherId)`: add a course with a
fresh id, empty lesson list and the optional image blob. -/
def createCourse (p : CourseCreatePayload) (teacherId : String) (now : Nat)
    (db : DB) : Except String (CourseRecord × DB) :=
  let newCourse : CourseRecord :=
    { id := "course" ++ toString now, title := p.title,
      description := p.description, teacherId := teacherId, lessons := [],
      imageUrl := "", status := p.status, imageBlob := p.imageFile }
  (coursesAdd db.courses newCourse).map
    (fun courses' => (processCourse newCourse, { db with courses := courses' }))

/-- Payload of `api.updateCourse` (`CourseUpdatePayload`): absent
fields are `none`. -/
structure CourseUpdatePayload where
  id : String
  title : Option String := none
  description : Option String := none
  status : Option CourseStatus := none
  imageFile : Option BlobData := none
deriving DecidableEq, Repr

/-- `api.updateCourse(courseData)`: merge the supplied scalar fields
over the existing record; a supplied image file replaces the stored
image blob. -/
def updateCourse (p : CourseUpdatePayload) (db : DB) :
    Except String (CourseRecord × DB) :=
  match findCourse db p.id with
  | none => .error "Course not found"
  | some existing =>
      let merged : CourseRecord :=
        { existing with
          id := p.id
          title := p.title.getD existing.title
          description := p.description.getD existing.description
          status := p.status.getD existing.status
          imageBlob := match p.imageFile with
            | some b => some b
            | none => existing.imageBlob }
      .ok (processCourse merged,
        { db with courses := coursesPut db.courses merged })

/-- `api.deleteCourse(courseId)`: remove the course record by key (its
embedded lessons go with it). -/
def deleteCourse (courseId : String) (db : DB) : DB :=
  { db with courses := db.courses.filter (fun c => c.id ≠ courseId) }

-- --- Lessons ---

/-- Payload of the lesson operations (`LessonPayload`). -/
structure LessonPayload where
  title : String
  content : String
  duration : Option String := none
  videoUrlInput : Option String := none
  videoFile : Option BlobData := none
  attachmentFile : Option BlobData := none
  attachmentRemoved : Bool := false
  videoRemoved : Bool := false
deriving DecidableEq, Repr

/-- JS truthiness of an optional string (`undefined` and `""` are
falsy). -/
def strTruthy : Option String → Bool
  | some s => s ≠ ""
  | none => false

/-- The lesson record built by `addLessonToCourse`: a video file wins
over a video URL input (the `else if`); an attachment file carries its
name and size. -/
def mkNewLesson (p : LessonPayload) (now : Nat) : LessonRecord :=
  let base : LessonRecord :=
    { id := "lesson" ++ toString now, title := p.title, content := p.content,
      duration := p.duration }
  let withVideo :=
    match p.videoFile with
    | some f =>
        { base with
          videoBlob := some f
          videoSize := some ((f.size : Rat) / (1024 * 1024)) }
    | none =>
        if strTruthy p.videoUrlInput then
          { base with videoUrl := p.videoUrlInput }
        else base
  match p.attachmentFile with
  | some f =>
      { withVideo with
        fileBlob := some f
        fileName := some f.name
        fileSize := some ((f.size : Rat) / (1024 * 1024)) }
  | none => withVideo

/-- `api.addLessonToCourse(courseId, lessonData)`: push the new lesson
at the end of the course's lesson list and put the course back. -/
def addLessonToCourse (courseId : String) (p : LessonPayload) (now : Nat)
    (db : DB) : Except String (LessonRecord × DB) :=
  match findCourse db courseId with
  | none => .error "Course not found"
  | some course =>
      let newLesson := mkNewLesson p now
      let course' := { course with lessons := course.lessons ++ [newLesson] }
      .ok (processLesson newLesson,
        { db with courses := coursesPut db.courses course' })

/-- `api.deleteLessonFromCourse(courseId, lessonId)`. -/
def deleteLessonFromCourse (courseId lessonId : String) (db : DB) :
    Except String DB :=
  match findCourse db courseId with
  | none => .error "Course not found"
  | some course =>
      let course' :=
        { course with
          lessons := course.lessons.filter (fun l => l.id ≠ lessonId) }
      .ok { db with courses := coursesPut db.courses course' }

/-- `new Map(course.lessons.map(l => [l.id, l])).get(id)`: on duplicate
keys a JS `Map` keeps the last entry, hence the search runs over the
reversed list. -/
def lessonMapGet (lessons : List LessonRecord) (id : String) :
    Option LessonRecord :=
  lessons.reverse.find? (fun l => l.id = id)

/-- `api.reorderLessons(courseId, lessonIds)`: rebuild the lesson list
by looking each given id up in the map and dropping the misses
(`.filter(Boolean)`), then put the course back.  No permutation check
is performed. -/
def reorderLessons (courseId : String) (lessonIds : List String) (db : DB) :
    Except String DB :=
  match findCourse db courseId with
  | none => .error "Course not found"
  | some course =>
      let course' :=
        { course with
          lessons := lessonIds.filterMap (lessonMapGet course.lessons) }
      .ok { db with courses := coursesPut db.courses course' }

-- --- Enrollments ---

/-- `enrollments` store, unique composite index
`(studentId, courseId)`, `get`. -/
def findEnrollmentPair (enrollments : List EnrollmentRecord)
    (studentId courseId : String) : Option EnrollmentRecord :=
  enrollments.find?
    (fun e => e.studentId = studentId ∧ e.courseId = courseId)

/-- `enrollments` store `add`: fails when the key `id` or the unique
composite `(studentId, courseId)` index is violated. -/
def enrollmentsAdd (enrollments : List EnrollmentRecord)
    (r : EnrollmentRecord) : Except String (List EnrollmentRecord) :=
  if enrollments.any (fun e => e.id = r.id) then .error "ConstraintError"
  else if enrollments.any
      (fun e => e.studentId = r.studentId ∧ e.courseId = r.courseId) then
    .error "ConstraintError"
  else .ok (enrollments ++ [r])

/-- `api.createEnrollment(studentId, courseId)`: reject when any
enrollment for the pair exists (whatever its status), otherwise add a
fresh Pending one. -/
def createEnrollment (studentId courseId : String) (now : Nat) (db : DB) :
    Except String (EnrollmentRecord × DB) :=
  match findEnrollmentPair db.enrollments studentId courseId with
  | some _ => .error "Already enrolled or request pending"
  | none =>
      let newEnrollment : EnrollmentRecord :=
        { id := "enroll" ++ toString now, studentId := studentId,
          courseId := courseId, status := EnrollmentStatus.pending }
      (enrollmentsAdd db.enrollments newEnrollment).map
        (fun es => (newEnrollment, { db with enrollments := es }))

/-- `api.getEnrollmentForStudent(studentId, courseId)`. -/
def getEnrollmentForStudent (studentId courseId : String) (db : DB) :
    Option EnrollmentRecord :=
  findEnrollmentPair db.enrollments studentId courseId

/-- `api.getEnrolledCoursesByStudentId(studentId)`: the courses of the
student's Approved enrollments, joined with teacher info. -/
def getEnrolledCoursesByStudentId (studentId : String) (db : DB) :
    List CourseWithTeacherInfo :=
  let approved := db.enrollments.filter
    (fun e => e.studentId = studentId ∧
      e.status = EnrollmentStatus.approved)
  let enrolledIds := approved.map (fun e => e.courseId)
  (db.courses.filter (fun c => enrolledIds.contains c.id)).map
    (joinTeacher db.users)

-- --- Seeding (dbPromise / seedInitialData) ---

/-- The literal `initialData.users` of mockApi.ts. -/
def initialUsers : List UserRecord :=
  [ { id := "admin1", email := "erick@gmail.com",
      password := some "Erick3132!@#", name := "Erick", role := Role.admin,
      profilePhotoUrl := "https://picsum.photos/seed/admin1/200" },
    { id := "teacher1", email := "teacher@test.com",
      password := some "password", name := "Alice Teacher",
      role := Role.teacher,
      profilePhotoUrl := "https://picsum.photos/seed/teacher1/200" },
    { id := "student1", email := "student@test.com",
      password := some "password", name := "Bob Student",
      role := Role.student,
      profilePhotoUrl := "https://picsum.photos/seed/student1/200" },
    { id := "student2", email := "student2@test.com",
      password := some "password", name := "Charlie Student",
      role := Role.student,
      profilePhotoUrl := "https://picsum.photos/seed/student2/200" } ]

/-- The literal `initialData.courses` of mockApi.ts (3 lessons and 2
lessons; lesson contents abbreviated to their leading words, which no
claim depends on). -/
def initialCourses : List CourseRecord :=
  [ { id := "course1", title := "Introduction to React",
      description := "Learn the fundamentals of React.",
      teacherId := "teacher1",
      imageUrl := "https://picsum.photos/seed/course1/600/400",
      status := CourseStatus.published,
      lessons :=
        [ { id := "l1-1", title := "Welcome to React!",
            content := "This is the first lesson.",
            duration := some "5 minutes" },
          { id := "l1-2", title := "Understanding JSX",
            content := "JSX is a syntax extension for JavaScript.",
            duration := some "15 minutes" },
          { id := "l1-3", title := "Components and Props",
            content := "Components are the building blocks.",
            duration := some "20 minutes" } ] },
    { id := "course2", title := "Advanced Tailwind CSS",
      description := "Master Tailwind CSS.",
      teacherId := "teacher1",
      imageUrl := "https://picsum.photos/seed/course2/600/400",
      status := CourseStatus.published,
      lessons :=
        [ { id := "l2-1", title := "Getting Started with Tailwind",
            content := "This is a free preview.",
            duration := some "10 minutes" },
          { id := "l2-2", title := "Responsive Design",
            content := "Learn responsive design features.",
            duration := some "25 minutes" } ] } ]

/-- The literal `initialData.enrollments` of mockApi.ts. -/
def initialEnrollments : List EnrollmentRecord :=
  [ { id := "enroll1", studentId := "student1", courseId := "course1",
      status := EnrollmentStatus.approved },
    { id := "enroll2", studentId := "student2", courseId := "course1",
      status := EnrollmentStatus.pending } ]

/-- The literal `initialData.reviews` of mockApi.ts. -/
def initialReviews : List ReviewRecord :=
  [ { id := "review1", studentId := "student1", courseId := "course1",
      rating := 5,
      comment := "Excellent course! The instructor was very clear." } ]

/-- A fetch oracle: for each asset URL, the fetched bytes, or `none`
when the fetch failed (`fetchImageAsBlob` returns `null` then). -/
def FetchOracle : Type := String → Option BlobData

/-- Step 1 of `seedInitialData`: the seed users with their photo blobs
fetched (a failed fetch leaves the blob `null`). -/
def seedUsersWithBlobs (fetch : FetchOracle) : List UserRecord :=
  initialUsers.map
    (fun u => { u with profilePhotoBlob := fetch u.profilePhotoUrl })

/-- Step 1 of `seedInitialData`: the seed courses with their image
blobs fetched. -/
def seedCoursesWithBlobs (fetch : FetchOracle) : List CourseRecord :=
  initialCourses.map
    (fun c => { c with imageBlob := fetch c.imageUrl })

/-- A fold of store `put`s inside one transaction: the first failing
put aborts the whole batch. -/
def putAll {α : Type} (put : List α → α → Except String (List α))
    (store : List α) (records : List α) : Except String (List α) :=
  match records with
  | [] => .ok store
  | r :: rs =>
      match put store r with
      | .ok store' => putAll put store' rs
      | .error e => .error e

/-- `enrollments` store `put` (upsert by key `id`), with the unique
composite index check. -/
def enrollmentsPut (enrollments : List EnrollmentRecord)
    (r : EnrollmentRecord) : Except String (List EnrollmentRecord) :=
  if enrollments.any (fun e => e.id ≠ r.id ∧
      e.studentId = r.studentId ∧ e.courseId = r.courseId) then
    .error "ConstraintError"
  else if enrollments.any (fun e => e.id = r.id) then
    .ok (enrollments.map (fun e => if e.id = r.id then r else e))
  else .ok (enrollments ++ [r])

/-- `reviews` store `put` (upsert by key `id`, no unique index). -/
def reviewsPut (reviews : List ReviewRecord) (r : ReviewRecord) :
    List ReviewRecord :=
  if reviews.any (fun e => e.id = r.id) then
    reviews.map (fun e => if e.id = r.id then r else e)
  else reviews ++ [r]

/-- Step 2 of `seedInitialData`: with every asset fetch already
resolved, put all seed records in one readwrite transaction; any
constraint failure aborts the whole batch (the transaction errors). -/
def seedInitialData (fetch : FetchOracle) (db : DB) : Except String DB :=
  match putAll usersPut db.users (seedUsersWithBlobs fetch) with
  | .error e => .error e
  | .ok users' =>
      let courses' :=
        (seedCoursesWithBlobs fetch).foldl coursesPut db.courses
      match putAll enrollmentsPut db.enrollments initialEnrollments with
      | .error e => .error e
      | .ok enrollments' =>
          .ok { users := users', courses := courses',
                enrollments := enrollments',
                reviews := initialReviews.foldl reviewsPut db.reviews }

/-- `request.onsuccess` of `dbPromise`: count the `users` store and
seed only when it is empty, then resolve with the database. -/
def openDatabase (fetch : FetchOracle) (db : DB) : Except String DB :=
  if db.users.length = 0 then seedInitialData fetch db else .ok db

-- --- States reachable through the user-directory operations ---

/-- Well-formedness of the `users` store: the `id` key and the unique
`email` index admit no duplicates. -/
def UsersOk (users : List UserRecord) : Prop :=
  (users.map (fun u => u.id)).Nodup ∧ (users.map (fun u => u.email)).Nodup

/-- Database states reachable through the exposed user-directory
operations, starting from an empty or freshly seeded database. -/
inductive Reachable : DB → Prop where
  | empty : Reachable emptyDB
  | seeded (fetch : FetchOracle) (db : DB) :
      openDatabase fetch emptyDB = .ok db → Reachable db
  | registerStep (n e pw : String) (now : Nat) (db : DB) (u : UserRecord)
      (db' : DB) : Reachable db → register n e pw now db = .ok (u, db') →
      Reachable db'
  | createUserStep (p : UserCreatePayload) (now : Nat) (db : DB)
      (u : UserRecord) (db' : DB) : Reachable db →
      createUser p now db = .ok (u, db') → Reachable db'
  | updateUserStep (p : UserUpdatePayload) (db : DB) (u : UserRecord)
      (db' : DB) : Reachable db → updateUser p db = .ok (u, db') →
      Reachable db'
  | deleteUserStep (userId : String) (db : DB) : Reachable db →
      Reachable (deleteUser userId db)

-- --- Concrete fixtures used by counterexamples and witnesses ---

/-- A two-lesson course fixture. -/
def exCourse : CourseRecord :=
  { id := "c1", title := "T", description := "D", teacherId := "t1",
    imageUrl := "", status := CourseStatus.published,
    lessons :=
      [ { id := "la", title := "A", content := "a" },
        { id := "lb", title := "B", content := "b" } ] }

/-- A database holding only `exCourse`. -/
def exDB : DB := ⟨[], [exCourse], [], []⟩

/-- A single-user fixture. -/
def exUser : UserRecord :=
  { id := "u1", email := "a@b.c", password := some "pw", name := "N",
    role := Role.student, profilePhotoUrl := "" }

/-- A database holding only `exUser`. -/
def exUserDB : DB := ⟨[exUser], [], [], []⟩

/-- A database holding one Rejected enrollment for
`("student9", "course9")`. -/
def exRejectedDB : DB :=
  ⟨[], [],
   [ { id := "enrollR", studentId := "student9", courseId := "course9",
       status := EnrollmentStatus.rejected } ], []⟩

-- --- Helper lemmas ---

theorem except_map_ok {ε α β : Type} {x : Except ε α} {f : α → β} {b : β}
    (h : x.map f = .ok b) : ∃ a, x = .ok a ∧ b = f a := by
  cases x with
  | ok a =>
      refine ⟨a, rfl, ?_⟩
      injection h with h2
      exact h2.symm
  | error e => exact Except.noConfusion h

theorem processUser_password (u : UserRecord) :
    (processUser u).password = u.password := by
  unfold processUser
  cases u.profilePhotoBlob <;> rfl

theorem processCourse_lessons (c : CourseRecord) :
    (processCourse c).lessons = c.lessons := by
  unfold processCourse
  cases c.imageBlob <;> rfl

theorem processCourse_id (c : CourseRecord) :
    (processCourse c).id = c.id := by
  unfold processCourse
  cases c.imageBlob <;> rfl

theorem processLesson_id (l : LessonRecord) :
    (processLesson l).id = l.id := by
  unfold processLesson
  cases hv : l.videoBlob <;> simp <;> cases l.fileBlob <;> rfl

theorem stripPassword_password (u : UserRecord) :
    (stripPassword u).password = none := rfl

/-- Replacing, in a list, every course whose id matches `r.id` by `r`
makes `r` the first hit of a lookup for that id, provided some course
with that id was present. -/
theorem replace_find? {l : List CourseRecord} {r : CourseRecord}
    (hmem : ∃ c ∈ l, c.id = r.id) :
    (l.map (fun c => if c.id = r.id then r else c)).find?
      (fun c => c.id = r.id) = some r := by
  induction l with
  | nil =>
      obtain ⟨c, hc, _⟩ := hmem
      exact absurd hc (List.not_mem_nil c)
  | cons a t ih =>
      by_cases ha : a.id = r.id
      · simp [List.find?, ha]
      · have ht : ∃ c ∈ t, c.id = r.id := by
          obtain ⟨c, hc, hcid⟩ := hmem
          rcases List.mem_cons.mp hc with rfl | h
          · exact absurd hcid ha
          · exact ⟨c, h, hcid⟩
        simpa [List.find?, ha] using ih ht

/-- `coursesPut` of a record whose id is already present stores exactly
that record under its id. -/
theorem coursesPut_find? (l : List CourseRecord) (r : CourseRecord)
    (hmem : ∃ c ∈ l, c.id = r.id) :
    (coursesPut l r).find? (fun c => c.id = r.id) = some r := by
  unfold coursesPut
  rw [if_pos]
  · exact replace_find? hmem
  · obtain ⟨c, hc, hcid⟩ := hmem
    exact List.any_eq_true.mpr ⟨c, hc, by simpa using hcid⟩

/-- `coursesPut` leaves records with a different id in place. -/
theorem coursesPut_mem_other {l : List CourseRecord} {r c : CourseRecord}
    (hc : c ∈ l) (hne : c.id ≠ r.id) : c ∈ coursesPut l r := by
  unfold coursesPut
  split
  · have heq : (if c.id = r.id then r else c) = c := by simp [hne]
    exact heq ▸ List.mem_map_of_mem _ hc
  · exact List.mem_append_left _ hc

/-- Any enrollment already stored for the pair makes `createEnrollment`
fail, whatever the stored status. -/
theorem createEnrollment_error_of_mem {db : DB} {s c : String} {n : Nat}
    {ex : EnrollmentRecord} (hmem : ex ∈ db.enrollments)
    (hs : ex.studentId = s) (hc : ex.courseId = c) :
    createEnrollment s c n db =
      .error "Already enrolled or request pending" := by
  unfold createEnrollment
  cases hf : findEnrollmentPair db.enrollments s c with
  | some e => rfl
  | none =>
      exfalso
      unfold findEnrollmentPair at hf
      have := List.find?_eq_none.mp hf ex hmem
      simp [hs, hc] at this

/-- C3: after a first successful `createEnrollment` for a pair, any
second call fails with the AlreadyEnrolled error and exactly one
enrollment for the pair is stored; moreover any state already holding
an enrollment for the pair — whatever its status, Rejected included —
makes the call fail. -/
theorem createEnrollment_second_call_fails :
    (∀ (db : DB) (s c : String) (n1 : Nat) (e1 : EnrollmentRecord)
      (db1 : DB), createEnrollment s c n1 db = .ok (e1, db1) →
      (∀ n2 : Nat, createEnrollment s c n2 db1 =
        .error "Already enrolled or request pending") ∧
      (db1.enrollments.filter
        (fun e => e.studentId = s ∧ e.courseId = c)).length = 1) ∧
    (∀ (db : DB) (s c : String) (n : Nat) (ex : EnrollmentRecord),
      ex ∈ db.enrollments → ex.studentId = s → ex.courseId = c →
      createEnrollment s c n db =
        .error "Already enrolled or request pending") := by
  constructor
  · intro db s c n1 e1 db1 h
    unfold createEnrollment at h
    split at h
    · exact Except.noConfusion h
    · next hf =>
        dsimp only [] at h
        obtain ⟨es, hadd, hpair⟩ := except_map_ok h
        injection hpair with h3 h4
        subst h3
        subst h4
        unfold enrollmentsAdd at hadd
        split at hadd
        · exact Except.noConfusion hadd
        · split at hadd
          · exact Except.noConfusion hadd
          · injection hadd with h5
            subst h5
            refine ⟨?_, ?_⟩
            · intro n2
              exact createEnrollment_error_of_mem
                (List.mem_append_right _ (List.mem_singleton.mpr rfl))
                rfl rfl
            · unfold findEnrollmentPair at hf
              have hall := List.find?_eq_none.mp hf
              have hnil : db.enrollments.filter
                  (fun e => e.studentId = s ∧ e.courseId = c) = [] :=
                List.filter_eq_nil_iff.mpr hall
              simp [hnil]
              intro a ha hs2
              have h2 := hall a ha
              simp [hs2] at h2
              exact h2
  · intro db s c n ex hmem hs hc
    exact createEnrollment_error_of_mem hmem hs hc

/-- C6: no user-returning operation exposes the stored credential: the
user records returned by `login`, `register`, `getUsers`, `updateUser`
and `createUser` all carry no password. -/
theorem returned_users_have_no_password :
    (∀ (e pw : String) (db : DB) (u : UserRecord),
      login e pw db = .ok u → u.password = none) ∧
    (∀ (n e pw : String) (now : Nat) (db : DB)
      (r : UserRecord × DB), register n e pw now db = .ok r →
      r.1.password = none) ∧
    (∀ (db : DB) (u : UserRecord), u ∈ getUsers db → u.password = none) ∧
    (∀ (p : UserUpdatePayload) (db : DB) (r : UserRecord × DB),
      updateUser p db = .ok r → r.1.password = none) ∧
    (∀ (p : UserCreatePayload) (now : Nat) (db : DB)
      (r : UserRecord × DB), createUser p now db = .ok r →
      r.1.password = none) := by
  refine ⟨?_, ?_, ?_, ?_, ?_⟩
  · intro e pw db u h
    unfold login at h
    split at h
    · split at h
      · injection h with h2
        subst h2
        rfl
      · exact Except.noConfusion h
    · exact Except.noConfusion h
  · intro n e pw now db r h
    unfold register at h
    split at h
    · exact Except.noConfusion h
    · dsimp only [] at h
      obtain ⟨users', _, hr⟩ := except_map_ok h
      subst hr
      rfl
  · intro db u hu
    unfold getUsers at hu
    obtain ⟨v, _, rfl⟩ := List.mem_map.mp hu
    rfl
  · intro p db r h
    unfold updateUser at h
    split at h
    · exact Except.noConfusion h
    · dsimp only [] at h
      obtain ⟨users', _, hr⟩ := except_map_ok h
      subst hr
      rfl
  · intro p now db r h
    unfold createUser at h
    split at h
    · exact Except.noConfusion h
    · dsimp only [] at h
      obtain ⟨users', _, hr⟩ := except_map_ok h
      subst hr
      rfl

/-- Witness for C3 at concrete inputs: after enrolling `("s1", "co1")`
in the empty database, a second call fails and one record is stored;
a Rejected enrollment also blocks the call. -/
theorem createEnrollment_second_call_fails_witness :
    createEnrollment "s1" "co1" 7
        ⟨[], [],
         [{ id := "enroll1", studentId := "s1", courseId := "co1",
            status := EnrollmentStatus.pending }], []⟩ =
      .error "Already enrolled or request pending" ∧
    ((⟨[], [],
       [{ id := "enroll1", studentId := "s1", courseId := "co1",
          status := EnrollmentStatus.pending }], []⟩ : DB).enrollments.filter
      (fun e => e.studentId = "s1" ∧ e.courseId = "co1")).length = 1 ∧
    createEnrollment "student9" "course9" 3 exRejectedDB =
      .error "Already enrolled or request pending" :=
  have H := createEnrollment_second_call_fails.1 emptyDB "s1" "co1" 1
    { id := "enroll1", studentId := "s1", courseId := "co1",
      status := EnrollmentStatus.pending }
    ⟨[], [],
     [{ id := "enroll1", studentId := "s1", courseId := "co1",
        status := EnrollmentStatus.pending }], []⟩ rfl
  ⟨H.1 7, H.2,
    createEnrollment_second_call_fails.2 exRejectedDB "student9" "course9" 3
      { id := "enrollR", studentId := "student9", courseId := "course9",
        status := EnrollmentStatus.rejected }
      (by decide) (by decide) (by decide)⟩

/-- Witness for C6 at a concrete input: the user returned by a
successful `login` on `exUserDB` carries no password. -/
theorem returned_users_no_password_witness :
    (stripPassword (processUser exUser)).password = none :=
  returned_users_have_no_password.1 "a@b.c" "pw" exUserDB
    (stripPassword (processUser exUser)) rfl

theorem joinTeacher_course (us : List UserRecord) (c : CourseRecord) :
    (joinTeacher us c).course = processCourse c := by
  unfold joinTeacher
  split <;> rfl

/-- C7: deleting a course removes it together with its embedded
lessons: the course is gone from the store, `getCourseById` returns
none for it, and every course any exposed query can still return is a
surviving stored course, so a lesson living only in the deleted course
is no longer retrievable. -/
theorem deleteCourse_removes_course_and_lessons :
    ∀ (db : DB) (cid : String) (c0 : CourseRecord),
      findCourse db cid = some c0 →
      getCourseById cid (deleteCourse cid db) = none ∧
      (∀ c ∈ (deleteCourse cid db).courses, c.id ≠ cid ∧ c ∈ db.courses) ∧
      (∀ l ∈ c0.lessons,
        (∀ c ∈ db.courses, l ∈ c.lessons → c.id = cid) →
        ∀ c' ∈ (deleteCourse cid db).courses, l ∉ c'.lessons) ∧
      (∀ (cid2 : String) (c' : CourseRecord),
        getCourseById cid2 (deleteCourse cid db) = some c' →
        ∃ c ∈ (deleteCourse cid db).courses,
          c.id = cid2 ∧ c'.lessons = c.lessons.map processLesson) ∧
      (∀ c' ∈ getAllCoursesForAdmin (deleteCourse cid db),
        ∃ c ∈ (deleteCourse cid db).courses, c'.lessons = c.lessons) ∧
      (∀ (tid : String) (c' : CourseRecord),
        c' ∈ getCoursesByTeacherId tid (deleteCourse cid db) →
        ∃ c ∈ (deleteCourse cid db).courses, c'.lessons = c.lessons) ∧
      (∀ cw ∈ getCourses (deleteCourse cid db),
        ∃ c ∈ (deleteCourse cid db).courses, cw.course.lessons = c.lessons) ∧
      (∀ (sid : String) (cw : CourseWithTeacherInfo),
        cw ∈ getEnrolledCoursesByStudentId sid (deleteCourse cid db) →
        ∃ c ∈ (deleteCourse cid db).courses,
          cw.course.lessons = c.lessons) := by
  intro db cid c0 _
  have hmem : ∀ c ∈ (deleteCourse cid db).courses, c.id ≠ cid ∧
      c ∈ db.courses := by
    intro c hc
    unfold deleteCourse at hc
    have h2 := List.mem_filter.mp hc
    refine ⟨?_, h2.1⟩
    have := h2.2
    simpa using this
  refine ⟨?_, hmem, ?_, ?_, ?_, ?_, ?_, ?_⟩
  · unfold getCourseById findCourse
    have hnone : (deleteCourse cid db).courses.find?
        (fun c => c.id = cid) = none := by
      apply List.find?_eq_none.mpr
      intro x hx
      have := (hmem x hx).1
      simpa using this
    rw [hnone]
  · intro l _ honly c' hc' hl
    exact (hmem c' hc').1 (honly c' (hmem c' hc').2 hl)
  · intro cid2 c' h
    unfold getCourseById at h
    cases hf : findCourse (deleteCourse cid db) cid2 with
    | none => rw [hf] at h; exact Option.noConfusion h
    | some c =>
        rw [hf] at h
        dsimp only [] at h
        injection h with h2
        subst h2
        unfold findCourse at hf
        refine ⟨c, List.mem_of_find?_eq_some hf, ?_, ?_⟩
        · have := List.find?_some hf
          simpa using this
        · rw [processCourse_lessons]
  · intro c' hc'
    unfold getAllCoursesForAdmin at hc'
    obtain ⟨c, hc, rfl⟩ := List.mem_map.mp hc'
    exact ⟨c, hc, processCourse_lessons c⟩
  · intro tid c' hc'
    unfold getCoursesByTeacherId at hc'
    obtain ⟨c, hc, rfl⟩ := List.mem_map.mp hc'
    exact ⟨c, (List.mem_filter.mp hc).1, processCourse_lessons c⟩
  · intro cw hcw
    unfold getCourses at hcw
    obtain ⟨c, hc, rfl⟩ := List.mem_map.mp hcw
    refine ⟨c, (List.mem_filter.mp hc).1, ?_⟩
    rw [joinTeacher_course, processCourse_lessons]
  · intro sid cw hcw
    unfold getEnrolledCoursesByStudentId at hcw
    dsimp only [] at hcw
    obtain ⟨c, hc, rfl⟩ := List.mem_map.mp hcw
    refine ⟨c, (List.mem_filter.mp hc).1, ?_⟩
    rw [joinTeacher_course, processCourse_lessons]

/-- Witness for C7 at a concrete input: deleting `exCourse` from
`exDB`. -/
theorem deleteCourse_removes_course_and_lessons_witness :
    getCourseById "c1" (deleteCourse "c1" exDB) = none :=
  (deleteCourse_removes_course_and_lessons exDB "c1" exCourse rfl).1

/-- C8: `addLessonToCourse` appends the new lesson at the end of the
current order (it sits at index `prior lesson count`), and when the
payload carries both a video file and a video URL the stored lesson
holds the video blob and no external video URL. -/
theorem addLesson_appends_and_file_wins :
    ∀ (db : DB) (cid : String) (p : LessonPayload) (now : Nat)
      (course : CourseRecord) (l : LessonRecord) (db' : DB),
      findCourse db cid = some course →
      addLessonToCourse cid p now db = .ok (l, db') →
      (∃ c', findCourse db' cid = some c' ∧
        c'.lessons = course.lessons ++ [mkNewLesson p now] ∧
        c'.lessons[course.lessons.length]? = some (mkNewLesson p now)) ∧
      l = processLesson (mkNewLesson p now) ∧
      (∀ f, p.videoFile = some f →
        (mkNewLesson p now).videoBlob = some f ∧
        (mkNewLesson p now).videoUrl = none) := by
  intro db cid p now course l db' h1 h2
  have hid : course.id = cid := by
    have := List.find?_some h1
    simpa using this
  have hcmem : course ∈ db.courses := List.mem_of_find?_eq_some h1
  unfold addLessonToCourse at h2
  rw [h1] at h2
  dsimp only [] at h2
  injection h2 with h3
  injection h3 with h4 h5
  subst h4
  subst h5
  subst hid
  refine ⟨⟨{ course with lessons := course.lessons ++ [mkNewLesson p now] },
      ?_, rfl, ?_⟩, rfl, ?_⟩
  · unfold findCourse
    exact coursesPut_find? db.courses
      { course with lessons := course.lessons ++ [mkNewLesson p now] }
      ⟨course, hcmem, rfl⟩
  · exact List.getElem?_concat_length course.lessons (mkNewLesson p now)
  · intro f hf
    unfold mkNewLesson
    rw [hf]
    constructor <;> cases p.attachmentFile <;> rfl

/-- Witness for C8 at a concrete input: adding a lesson with both a
video file and a video URL input to `exCourse`. -/
theorem addLesson_appends_and_file_wins_witness :
    (mkNewLesson
      { title := "L", content := "x",
        videoUrlInput := some "http://v",
        videoFile := some ⟨"v.mp4", 2097152, 42⟩ } 9).videoBlob =
      some ⟨"v.mp4", 2097152, 42⟩ ∧
    (mkNewLesson
      { title := "L", content := "x",
        videoUrlInput := some "http://v",
        videoFile := some ⟨"v.mp4", 2097152, 42⟩ } 9).videoUrl = none :=
  (addLesson_appends_and_file_wins exDB "c1"
    { title := "L", content := "x", videoUrlInput := some "http://v",
      videoFile := some ⟨"v.mp4", 2097152, 42⟩ } 9 exCourse
    (processLesson (mkNewLesson
      { title := "L", content := "x", videoUrlInput := some "http://v",
        videoFile := some ⟨"v.mp4", 2097152, 42⟩ } 9))
    ⟨[], coursesPut exDB.courses
      { exCourse with
        lessons := exCourse.lessons ++
          [mkNewLesson
            { title := "L", content := "x",
              videoUrlInput := some "http://v",
              videoFile := some ⟨"v.mp4", 2097152, 42⟩ } 9] }, [], []⟩
    rfl rfl).2.2 ⟨"v.mp4", 2097152, 42⟩ rfl

/-- C10: `updateCourse` only touches the scalar fields the payload
supplies: id, teacherId, the whole lesson list and the stored image URL
are unchanged, unsupplied scalars keep their values, and courses with a
different id are untouched. -/
theorem updateCourse_only_supplied_fields :
    ∀ (db : DB) (p : CourseUpdatePayload) (existing : CourseRecord)
      (c : CourseRecord) (db' : DB),
      findCourse db p.id = some existing →
      updateCourse p db = .ok (c, db') →
      ∃ stored, findCourse db' p.id = some stored ∧
        stored.id = existing.id ∧
        stored.teacherId = existing.teacherId ∧
        stored.lessons = existing.lessons ∧
        stored.imageUrl = existing.imageUrl ∧
        (p.title = none → stored.title = existing.title) ∧
        (p.description = none → stored.description = existing.description) ∧
        (p.status = none → stored.status = existing.status) ∧
        (p.imageFile = none → stored.imageBlob = existing.imageBlob) ∧
        (∀ c2 ∈ db.courses, c2.id ≠ p.id → c2 ∈ db'.courses) := by
  intro db p existing c db' h1 h2
  have hid : existing.id = p.id := by
    have := List.find?_some h1
    simpa using this
  have hcmem : existing ∈ db.courses := List.mem_of_find?_eq_some h1
  unfold updateCourse at h2
  rw [h1] at h2
  dsimp only [] at h2
  injection h2 with h3
  injection h3 with h4 h5
  subst h4
  subst h5
  refine ⟨{ existing with
      id := p.id
      title := p.title.getD existing.title
      description := p.description.getD existing.description
      status := p.status.getD existing.status
      imageBlob := match p.imageFile with
        | some b => some b
        | none => existing.imageBlob },
    ?_, hid.symm, rfl, rfl, rfl, ?_, ?_, ?_, ?_, ?_⟩
  · unfold findCourse
    exact coursesPut_find? db.courses
      { existing with
        id := p.id
        title := p.title.getD existing.title
        description := p.description.getD existing.description
        status := p.status.getD existing.status
        imageBlob := match p.imageFile with
          | some b => some b
          | none => existing.imageBlob }
      ⟨existing, hcmem, hid⟩
  · intro h
    simp [h]
  · intro h
    simp [h]
  · intro h
    simp [h]
  · intro h
    simp [h]
  · intro c2 hc2 hne
    exact coursesPut_mem_other hc2 hne

/-- Witness for C10 at a concrete input: renaming `exCourse` leaves
its lessons, teacher and id unchanged. -/
theorem updateCourse_only_supplied_fields_witness :
    ∃ stored, findCourse
        ⟨[], coursesPut exDB.courses { exCourse with title := "T2" }, [],
         []⟩ "c1" = some stored ∧
      stored.id = exCourse.id ∧
      stored.teacherId = exCourse.teacherId ∧
      stored.lessons = exCourse.lessons ∧
      stored.imageUrl = exCourse.imageUrl ∧
      ((some "T2" : Option String) = none → stored.title = exCourse.title) ∧
      ((none : Option String) = none →
        stored.description = exCourse.description) ∧
      ((none : Option CourseStatus) = none →
        stored.status = exCourse.status) ∧
      ((none : Option BlobData) = none →
        stored.imageBlob = exCourse.imageBlob) ∧
      (∀ c2 ∈ exDB.courses, c2.id ≠ "c1" →
        c2 ∈ (⟨[], coursesPut exDB.courses { exCourse with title := "T2" },
          [], []⟩ : DB).courses) :=
  updateCourse_only_supplied_fields exDB { id := "c1", title := some "T2" }
    exCourse (processCourse { exCourse with title := "T2" })
    ⟨[], coursesPut exDB.courses { exCourse with title := "T2" }, [], []⟩
    rfl rfl

/-- C1 counterexample: on a course with lessons `["la", "lb"]`, calling
`reorderLessons` with the non-permutation `["la"]` (an existing id
omitted) is accepted — not rejected — and changes the stored order to
`["la"]`, dropping a lesson. -/
theorem reorderLessons_accepts_non_permutation_cex :
    (reorderLessons "c1" ["la"] exDB).map
        (fun db' => (findCourse db' "c1").map
          (fun c => c.lessons.map (fun l => l.id))) =
      .ok (some ["la"]) ∧
    (findCourse exDB "c1").map
        (fun c => c.lessons.map (fun l => l.id)) = some ["la", "lb"] :=
  ⟨rfl, rfl⟩

/-- The effect of a successful `reorderLessons`: the resulting state,
and the course record now stored under the course's id. -/
theorem reorder_result (db : DB) (course : CourseRecord)
    (ids : List String) (h1 : findCourse db course.id = some course)
    (hcmem : course ∈ db.courses) :
    reorderLessons course.id ids db = .ok
      { db with courses := (coursesPut db.courses
        { course with
          lessons := ids.filterMap (lessonMapGet course.lessons) }) } ∧
    findCourse
      { db with courses := (coursesPut db.courses
        { course with
          lessons := ids.filterMap (lessonMapGet course.lessons) }) }
      course.id = some
      { course with
        lessons := ids.filterMap (lessonMapGet course.lessons) } := by
  constructor
  · unfold reorderLessons
    rw [h1]
  · unfold findCourse
    exact coursesPut_find? db.courses
      { course with lessons := ids.filterMap (lessonMapGet course.lessons) }
      ⟨course, hcmem, rfl⟩

/-- C1 (amended): `reorderLessons` performs no permutation validation —
whenever the course exists the call succeeds, and the stored lesson
list becomes the input ids' matching lessons in input order, with
unknown ids silently dropped and omitted lessons silently discarded. -/
theorem reorderLessons_no_validation :
    ∀ (db : DB) (cid : String) (course : CourseRecord)
      (ids : List String),
      findCourse db cid = some course →
      ∃ db', reorderLessons cid ids db = .ok db' ∧
        findCourse db' cid = some
          { course with
            lessons := ids.filterMap (lessonMapGet course.lessons) } := by
  intro db cid course ids h1
  have hid : course.id = cid := by
    have := List.find?_some h1
    simpa using this
  have hcmem : course ∈ db.courses := List.mem_of_find?_eq_some h1
  subst hid
  obtain ⟨ha, hb⟩ := reorder_result db course ids h1 hcmem
  exact ⟨_, ha, hb⟩

/-- Witness for the amended C1 at a concrete input: reordering with an
unknown id and an omitted id stores the filtered list. -/
theorem reorderLessons_no_validation_witness :
    ∃ db', reorderLessons "c1" ["zz", "lb"] exDB = .ok db' ∧
      findCourse db' "c1" = some
        { exCourse with
          lessons := ["zz", "lb"].filterMap
            (lessonMapGet exCourse.lessons) } :=
  reorderLessons_no_validation exDB "c1" exCourse ["zz", "lb"] rfl

/-- In a lesson list with duplicate-free ids, the reorder lookup map
sends each lesson's id back to that lesson. -/
theorem lessonMapGet_self {ls : List LessonRecord}
    (hnd : (ls.map (fun l => l.id)).Nodup) :
    ∀ l ∈ ls, lessonMapGet ls l.id = some l := by
  intro l hl
  unfold lessonMapGet
  cases hfind : ls.reverse.find? (fun x => x.id = l.id) with
  | none =>
      exfalso
      have := List.find?_eq_none.mp hfind l (List.mem_reverse.mpr hl)
      simp at this
  | some x =>
      have hx1 : x.id = l.id := by
        have := List.find?_some hfind
        simpa using this
      have hx2 : x ∈ ls := List.mem_reverse.mp (List.mem_of_find?_eq_some hfind)
      have : x = l := List.inj_on_of_nodup_map hnd hx2 hl hx1
      rw [this]

/-- A lookup that restores each member of a list reconstructs the list
from its ids. -/
theorem filterMap_lookup_self (g : String → Option LessonRecord) :
    ∀ (sub : List LessonRecord), (∀ l ∈ sub, g l.id = some l) →
      (sub.map (fun l => l.id)).filterMap g = sub := by
  intro sub
  induction sub with
  | nil => intro _; rfl
  | cons l rest ih =>
      intro hall
      have hl := hall l (List.mem_cons_self l rest)
      simp only [List.map_cons, List.filterMap_cons, hl]
      rw [ih (fun x hx => hall x (List.mem_cons_of_mem l hx))]

/-- When every id of `P` names a lesson of `ls`, the looked-up lessons
carry back exactly the ids of `P`, in order. -/
theorem filterMap_ids_eq (ls : List LessonRecord) :
    ∀ (P : List String), (∀ i ∈ P, ∃ l ∈ ls, l.id = i) →
      (P.filterMap (lessonMapGet ls)).map (fun l => l.id) = P := by
  intro P
  induction P with
  | nil => intro _; rfl
  | cons i P' ih =>
      intro hall
      obtain ⟨l, hl, hlid⟩ := hall i (List.mem_cons_self i P')
      have hfound : ∃ x, lessonMapGet ls i = some x ∧ x.id = i := by
        unfold lessonMapGet
        cases hfind : ls.reverse.find? (fun x => x.id = i) with
        | none =>
            exfalso
            have := List.find?_eq_none.mp hfind l (List.mem_reverse.mpr hl)
            simp [hlid] at this
        | some x =>
            refine ⟨x, rfl, ?_⟩
            have := List.find?_some hfind
            simpa using this
      obtain ⟨x, hx, hxid⟩ := hfound
      simp only [List.filterMap_cons, hx, List.map_cons, hxid]
      rw [ih (fun j hj => hall j (List.mem_cons_of_mem i hj))]

/-- C4: for a permutation `P` of an existing course's (duplicate-free)
lesson-id set, `reorderLessons` succeeds and `getCourseById` then
returns the same lessons (processed), in exactly order `P`. -/
theorem reorderLessons_perm_roundtrip :
    ∀ (db : DB) (cid : String) (course : CourseRecord) (P : List String),
      findCourse db cid = some course →
      P.Perm (course.lessons.map (fun l => l.id)) →
      (course.lessons.map (fun l => l.id)).Nodup →
      ∃ db' c', reorderLessons cid P db = .ok db' ∧
        getCourseById cid db' = some c' ∧
        c'.lessons.map (fun l => l.id) = P ∧
        c'.lessons.Perm (course.lessons.map processLesson) := by
  intro db cid course P h1 hperm hnd
  have hid : course.id = cid := by
    have := List.find?_some h1
    simpa using this
  have hcmem : course ∈ db.courses := List.mem_of_find?_eq_some h1
  subst hid
  obtain ⟨hre, hfc⟩ := reorder_result db course P h1 hcmem
  have hget : getCourseById course.id
      { db with courses := (coursesPut db.courses
        { course with
          lessons := P.filterMap (lessonMapGet course.lessons) }) } =
      some { (processCourse
          { course with
            lessons := P.filterMap (lessonMapGet course.lessons) }) with
        lessons := (processCourse
          { course with
            lessons := P.filterMap (lessonMapGet course.lessons) }).lessons.map
          processLesson } := by
    unfold getCourseById
    rw [hfc]
  have hL : (P.filterMap (lessonMapGet course.lessons)).Perm
      course.lessons := by
    have h2 := hperm.filterMap (lessonMapGet course.lessons)
    rw [filterMap_lookup_self (lessonMapGet course.lessons) course.lessons
      (lessonMapGet_self hnd)] at h2
    exact h2
  have hids : ((processCourse
      { course with
        lessons := P.filterMap (lessonMapGet course.lessons) }).lessons.map
      processLesson).map (fun l => l.id) = P := by
    rw [processCourse_lessons]
    rw [List.map_map]
    have hcong : (P.filterMap (lessonMapGet course.lessons)).map
        ((fun l => l.id) ∘ processLesson) =
        (P.filterMap (lessonMapGet course.lessons)).map (fun l => l.id) :=
      List.map_congr_left (fun a _ => processLesson_id a)
    rw [hcong]
    apply filterMap_ids_eq
    intro i hi
    have : i ∈ course.lessons.map (fun l => l.id) := hperm.mem_iff.mp hi
    obtain ⟨l, hl, hlid⟩ := List.mem_map.mp this
    exact ⟨l, hl, hlid⟩
  have hpm : ((processCourse
      { course with
        lessons := P.filterMap (lessonMapGet course.lessons) }).lessons.map
      processLesson).Perm (course.lessons.map processLesson) := by
    rw [processCourse_lessons]
    exact hL.map processLesson
  exact ⟨_, _, hre, hget, hids, hpm⟩

/-- Witness for C4 at a concrete input: reordering `exCourse` by the
permutation `["lb", "la"]` and reading it back returns the lessons in
exactly that order. -/
theorem reorderLessons_perm_roundtrip_witness :
    (reorderLessons "c1" ["lb", "la"] exDB).map
        (fun db' => (getCourseById "c1" db').map
          (fun c => c.lessons.map (fun l => l.id))) =
      .ok (some ["lb", "la"]) := by
  obtain ⟨db', c', h1, h2, h3, _⟩ :=
    reorderLessons_perm_roundtrip exDB "c1" exCourse ["lb", "la"] rfl
      (by decide) (by decide)
  rw [h1]
  dsimp only [Except.map]
  rw [h2]
  dsimp only [Option.map]
  rw [h3]

/-- C2 (code-bug evidence): updating `exUser` with an empty-string
password is accepted, but instead of leaving the credential unchanged
it deletes the stored password (`delete updatedRecord.password`), so
logging in afterwards with the user's previous email and password
fails with `Invalid credentials`. -/
theorem updateUser_empty_password_clears_credential :
    (updateUser { id := "u1", password := some "" } exUserDB).map
        (fun r => (r.2.users.map (fun u => u.password),
          login "a@b.c" "pw" r.2)) =
      .ok ([none], .error "Invalid credentials") := rfl

/-- C9: seeding is gated on an empty `users` store — a non-empty store
resolves unchanged — and, for every outcome of the asset fetches, the
whole seed batch commits: every seed user and course is stored, its
media blob being exactly the fetch result (`none` for a failed fetch,
leaving the record without that media reference), together with all
seed enrollments and reviews. -/
theorem seeding_gated_and_fault_tolerant :
    (∀ (fetch : FetchOracle) (db : DB), db.users ≠ [] →
      openDatabase fetch db = .ok db) ∧
    (∀ fetch : FetchOracle,
      openDatabase fetch emptyDB = .ok
        ⟨seedUsersWithBlobs fetch, seedCoursesWithBlobs fetch,
         initialEnrollments, initialReviews⟩ ∧
      (∀ u ∈ initialUsers,
        { u with profilePhotoBlob := fetch u.profilePhotoUrl } ∈
          seedUsersWithBlobs fetch) ∧
      (∀ c ∈ initialCourses,
        { c with imageBlob := fetch c.imageUrl } ∈
          seedCoursesWithBlobs fetch)) := by
  constructor
  · intro fetch db h
    unfold openDatabase
    rw [if_neg]
    simpa using h
  · intro fetch
    refine ⟨rfl, ?_, ?_⟩
    · intro u hu
      exact List.mem_map_of_mem _ hu
    · intro c hc
      exact List.mem_map_of_mem _ hc

/-- Witness for C9 at a concrete oracle (every fetch failing) and a
concrete non-empty database. -/
theorem seeding_gated_and_fault_tolerant_witness :
    openDatabase (fun _ => none) exUserDB = .ok exUserDB ∧
    openDatabase (fun _ => none) emptyDB = .ok
      ⟨seedUsersWithBlobs (fun _ => none),
       seedCoursesWithBlobs (fun _ => none), initialEnrollments,
       initialReviews⟩ :=
  ⟨seeding_gated_and_fault_tolerant.1 (fun _ => none) exUserDB
    (by decide),
   (seeding_gated_and_fault_tolerant.2 (fun _ => none)).1⟩

/-- A successful `usersAdd` preserves well-formedness of the `users`
store (it checked both the key and the unique email index). -/
theorem usersAdd_preserves {users : List UserRecord} {r : UserRecord}
    {users' : List UserRecord} (h : UsersOk users)
    (hadd : usersAdd users r = .ok users') : UsersOk users' := by
  unfold usersAdd at hadd
  split at hadd
  · exact Except.noConfusion hadd
  · next hA =>
      split at hadd
      · exact Except.noConfusion hadd
      · next hB =>
          injection hadd with h2
          subst h2
          have hA' : ∀ u ∈ users, u.id ≠ r.id := by
            intro u hu heq
            exact hA (List.any_eq_true.mpr ⟨u, hu, by simp [heq]⟩)
          have hB' : ∀ u ∈ users, u.email ≠ r.email := by
            intro u hu heq
            exact hB (List.any_eq_true.mpr ⟨u, hu, by simp [heq]⟩)
          constructor
          · simp only [List.map_append, List.map_cons, List.map_nil]
            rw [List.nodup_append]
            refine ⟨h.1, List.nodup_singleton _, ?_⟩
            intro a ha hb
            simp only [List.mem_singleton] at hb
            subst hb
            obtain ⟨u, hu, hid⟩ := List.mem_map.mp ha
            exact hA' u hu hid
          · simp only [List.map_append, List.map_cons, List.map_nil]
            rw [List.nodup_append]
            refine ⟨h.2, List.nodup_singleton _, ?_⟩
            intro a ha hb
            simp only [List.mem_singleton] at hb
            subst hb
            obtain ⟨u, hu, he⟩ := List.mem_map.mp ha
            exact hB' u hu he

/-- Replacing the record with `r`'s id by `r` keeps the email list
duplicate-free, provided no other record carried `r`'s email. -/
theorem nodup_email_replace :
    ∀ (users : List UserRecord) (r : UserRecord),
      (users.map (fun u => u.id)).Nodup →
      (users.map (fun u => u.email)).Nodup →
      (∀ u ∈ users, u.id = r.id ∨ u.email ≠ r.email) →
      ((users.map (fun u => if u.id = r.id then r else u)).map
        (fun u => u.email)).Nodup := by
  intro users r
  induction users with
  | nil =>
      intro _ _ _
      simp
  | cons a t ih =>
      intro hid hem hc
      simp only [List.map_cons, List.nodup_cons] at hid hem ⊢
      by_cases ha : a.id = r.id
      · have hvne : ∀ v ∈ t, v.id ≠ r.id := by
          intro v hv heq
          have : a.id ∈ t.map (fun u => u.id) := by
            rw [ha, ← heq]
            exact List.mem_map_of_mem _ hv
          exact hid.1 this
        have hmap : t.map (fun u => if u.id = r.id then r else u) = t := by
          have h2 : t.map (fun u => if u.id = r.id then r else u) =
              t.map (fun u => u) :=
            List.map_congr_left (fun v hv => by simp [hvne v hv])
          rw [h2, List.map_id']
        rw [if_pos ha, hmap]
        constructor
        · intro hmem
          obtain ⟨v, hv, hveq⟩ := List.mem_map.mp hmem
          rcases hc v (List.mem_cons_of_mem a hv) with h1 | h2
          · exact hvne v hv h1
          · exact h2 hveq
        · exact hem.2
      · rw [if_neg ha]
        constructor
        · intro hmem
          obtain ⟨w, hw, hweq⟩ := List.mem_map.mp hmem
          obtain ⟨v, hv, rfl⟩ := List.mem_map.mp hw
          by_cases hvid : v.id = r.id
          · rw [if_pos hvid] at hweq
            rcases hc a (List.mem_cons_self a t) with h1 | h2
            · exact ha h1
            · exact h2 hweq.symm
          · rw [if_neg hvid] at hweq
            exact hem.1 (hweq ▸ List.mem_map_of_mem _ hv)
        · exact ih hid.2 hem.2 (fun v hv => hc v (List.mem_cons_of_mem a hv))

/-- A successful `usersPut` preserves well-formedness of the `users`
store. -/
theorem usersPut_preserves {users : List UserRecord} {r : UserRecord}
    {users' : List UserRecord} (h : UsersOk users)
    (hput : usersPut users r = .ok users') : UsersOk users' := by
  unfold usersPut at hput
  split at hput
  · exact Except.noConfusion hput
  · next hC =>
      have hC' : ∀ u ∈ users, u.id = r.id ∨ u.email ≠ r.email := by
        intro u hu
        by_cases hid : u.id = r.id
        · exact Or.inl hid
        · right
          intro he
          exact hC (List.any_eq_true.mpr ⟨u, hu, by simp [hid, he]⟩)
      split at hput
      · injection hput with h2
        subst h2
        constructor
        · have h3 : (users.map (fun u => if u.id = r.id then r else u)).map
              (fun u => u.id) = users.map (fun u => u.id) := by
            rw [List.map_map]
            apply List.map_congr_left
            intro a _
            by_cases hid : a.id = r.id
            · simp [hid]
            · simp [hid]
          rw [h3]
          exact h.1
        · exact nodup_email_replace users r h.1 h.2 hC'
      · next hD =>
          injection hput with h2
          subst h2
          have hD' : ∀ u ∈ users, u.id ≠ r.id := by
            intro u hu heq
            exact hD (List.any_eq_true.mpr ⟨u, hu, by simp [heq]⟩)
          have hE' : ∀ u ∈ users, u.email ≠ r.email := by
            intro u hu
            rcases hC' u hu with hid | hne
            · exact absurd hid (hD' u hu)
            · exact hne
          constructor
          · simp only [List.map_append, List.map_cons, List.map_nil]
            rw [List.nodup_append]
            refine ⟨h.1, List.nodup_singleton _, ?_⟩
            intro a ha hb
            simp only [List.mem_singleton] at hb
            subst hb
            obtain ⟨u, hu, hid⟩ := List.mem_map.mp ha
            exact hD' u hu hid
          · simp only [List.map_append, List.map_cons, List.map_nil]
            rw [List.nodup_append]
            refine ⟨h.2, List.nodup_singleton _, ?_⟩
            intro a ha hb
            simp only [List.mem_singleton] at hb
            subst hb
            obtain ⟨u, hu, he⟩ := List.mem_map.mp ha
            exact hE' u hu he

/-- The freshly seeded `users` store is well formed, whatever the
asset-fetch outcomes. -/
theorem seeded_usersOk (fetch : FetchOracle) :
    UsersOk (seedUsersWithBlobs fetch) := by
  constructor
  · have h : (seedUsersWithBlobs fetch).map (fun u => u.id) =
        ["admin1", "teacher1", "student1", "student2"] := rfl
    rw [h]
    decide
  · have h : (seedUsersWithBlobs fetch).map (fun u => u.email) =
        ["erick@gmail.com", "teacher@test.com", "student@test.com",
         "student2@test.com"] := rfl
    rw [h]
    decide

/-- Every reachable state has a well-formed `users` store. -/
theorem reachable_usersOk : ∀ db : DB, Reachable db → UsersOk db.users := by
  intro db h
  induction h with
  | empty => exact ⟨List.nodup_nil, List.nodup_nil⟩
  | seeded fetch db hopen =>
      have hseed : openDatabase fetch emptyDB = .ok
          ⟨seedUsersWithBlobs fetch, seedCoursesWithBlobs fetch,
           initialEnrollments, initialReviews⟩ := rfl
      rw [hseed] at hopen
      injection hopen with h2
      subst h2
      exact seeded_usersOk fetch
  | registerStep n e pw now db u db' _ hok ih =>
      unfold register at hok
      split at hok
      · exact Except.noConfusion hok
      · dsimp only [] at hok
        obtain ⟨users', hadd, hr⟩ := except_map_ok hok
        injection hr with h3 h4
        subst h4
        exact usersAdd_preserves ih hadd
  | createUserStep p now db u db' _ hok ih =>
      unfold createUser at hok
      split at hok
      · exact Except.noConfusion hok
      · dsimp only [] at hok
        obtain ⟨users', hadd, hr⟩ := except_map_ok hok
        injection hr with h3 h4
        subst h4
        exact usersAdd_preserves ih hadd
  | updateUserStep p db u db' _ hok ih =>
      unfold updateUser at hok
      split at hok
      · exact Except.noConfusion hok
      · dsimp only [] at hok
        obtain ⟨users', hput, hr⟩ := except_map_ok hok
        injection hr with h3 h4
        subst h4
        exact usersPut_preserves ih hput
  | deleteUserStep userId db _ ih =>
      constructor
      · exact List.Nodup.sublist
          (List.Sublist.map _ (List.filter_sublist _)) ih.1
      · exact List.Nodup.sublist
          (List.Sublist.map _ (List.filter_sublist _)) ih.2

/-- A duplicate-free image list bounds every fibre of the map by one. -/
theorem count_le_one_of_nodup_map {α β : Type} [DecidableEq β]
    (f : α → β) :
    ∀ l : List α, (l.map f).Nodup → ∀ e : β,
      (l.filter (fun u => f u = e)).length ≤ 1 := by
  intro l
  induction l with
  | nil =>
      intro _ e
      simp
  | cons a t ih =>
      intro hnd e
      simp only [List.map_cons, List.nodup_cons] at hnd
      by_cases ha : f a = e
      · rw [List.filter_cons_of_pos (by simp [ha])]
        have ht : t.filter (fun u => f u = e) = [] := by
          apply List.filter_eq_nil_iff.mpr
          intro v hv hveq
          apply hnd.1
          have h2 : f v = e := by simpa using hveq
          rw [ha, ← h2]
          exact List.mem_map_of_mem _ hv
        rw [ht]
        simp
      · rw [List.filter_cons_of_neg (by simp [ha])]
        exact ih hnd.2 e

/-- C5: in every state reachable through the exposed user operations,
at most one user record exists per email; registering a second user
with a present email fails with the duplicate-email error and exactly
one record with that email remains stored. -/
theorem email_unique_invariant :
    (∀ db : DB, Reachable db → ∀ e : String,
      (db.users.filter (fun u => u.email = e)).length ≤ 1) ∧
    (∀ (db : DB) (n e pw : String) (now : Nat), Reachable db →
      (∃ u ∈ db.users, u.email = e) →
      register n e pw now db =
        .error "User with this email already exists" ∧
      (db.users.filter (fun u => u.email = e)).length = 1) := by
  have hinv : ∀ db : DB, Reachable db → ∀ e : String,
      (db.users.filter (fun u => u.email = e)).length ≤ 1 := by
    intro db h e
    exact count_le_one_of_nodup_map (fun u => u.email) db.users
      (reachable_usersOk db h).2 e
  refine ⟨hinv, ?_⟩
  intro db n e pw now h ⟨u, hu, hue⟩
  constructor
  · cases hf : findUserByEmail db.users e with
    | some v =>
        unfold register
        rw [hf]
    | none =>
        exfalso
        unfold findUserByEmail at hf
        have := List.find?_eq_none.mp hf u hu
        simp [hue] at this
  · refine Nat.le_antisymm (hinv db h e) ?_
    have hmem : u ∈ db.users.filter (fun x => x.email = e) :=
      List.mem_filter.mpr ⟨hu, by simp [hue]⟩
    exact List.length_pos.mpr (List.ne_nil_of_mem hmem)

/-- Witness for C5 at a concrete input: in the seeded database (all
fetches failing), registering the admin email again fails and exactly
one record with that email is stored. -/
theorem email_unique_invariant_witness :
    register "X" "erick@gmail.com" "p" 0
        ⟨seedUsersWithBlobs (fun _ => none),
         seedCoursesWithBlobs (fun _ => none), initialEnrollments,
         initialReviews⟩ =
      .error "User with this email already exists" ∧
    ((⟨seedUsersWithBlobs (fun _ => none),
       seedCoursesWithBlobs (fun _ => none), initialEnrollments,
       initialReviews⟩ : DB).users.filter
      (fun u => u.email = "erick@gmail.com")).length = 1 :=
  email_unique_invariant.2
    ⟨seedUsersWithBlobs (fun _ => none),
     seedCoursesWithBlobs (fun _ => none), initialEnrollments,
     initialReviews⟩ "X" "erick@gmail.com" "p" 0
    (Reachable.seeded (fun _ => none) _ rfl)
    ⟨{ id := "admin1", email := "erick@gmail.com",
       password := some "Erick3132!@#", name := "Erick",
       role := Role.admin,
       profilePhotoUrl := "https://picsum.photos/seed/admin1/200",
       profilePhotoBlob := none },
     by decide, rfl⟩

end Yaymon
